import Mathlib

/-!
Shallow embedding of the BMI dashboard (`src/app.py`) and proofs about it.

Real-valued quantities of the Python code are modelled by `ℚ`; a Python
expression that can raise (`KeyError`, `ZeroDivisionError`) is modelled as an
`Option`/error-returning function. The SQLite table `bmi_history` is modelled
as a `List Record` in insertion order; `ORDER BY date` is modelled as sorting
by the `date` string, and the save/delete handlers as pure state transformers.
-/

namespace BmiApp

/-- A row of the `bmi_history` table (`id, name, date, height, weight, bmi, status`). -/
structure Record where
  id : Nat
  name : String
  date : String
  height : ℚ
  weight : ℚ
  bmi : ℚ
  status : String
deriving DecidableEq, Repr

/-- `bmi_calc(height, weight)` — `weight / ((height / 100) ** 2)`; Python raises
`ZeroDivisionError` exactly when the divisor is zero, modelled as `none`. -/
def bmi_calc (height weight : ℚ) : Option ℚ :=
  if (height / 100) ^ 2 = 0 then none else some (weight / (height / 100) ^ 2)

/-- `bmi_status(bmi)` — the descending threshold chain of `app.py`. -/
def bmi_status (bmi : ℚ) : String :=
  if bmi ≥ 35 then "고도 비만"
  else if bmi ≥ 30 then "2단계 비만"
  else if bmi ≥ 25 then "1단계 비만"
  else if bmi ≥ 23 then "과체중"
  else if bmi ≥ 18.5 then "정상"
  else "저체중"

/-- `calc_bmr(weight, height, age, gender)` — Mifflin-St Jeor, branch on gender. -/
def calc_bmr (weight height age : ℚ) (gender : String) : ℚ :=
  if gender = "남성" then 10 * weight + 6.25 * height - 5 * age + 5
  else 10 * weight + 6.25 * height - 5 * age - 161

/-- `calc_tdee(bmr, activity)` — `bmr * activity_map[activity]`; a key absent
from the dict raises `KeyError`, modelled as `none`. -/
def calc_tdee (bmr : ℚ) (activity : String) : Option ℚ :=
  if activity = "거의 없음" then some (bmr * 1.2)
  else if activity = "가벼움 (주1~3회)" then some (bmr * 1.375)
  else if activity = "보통 (주3~5회)" then some (bmr * 1.55)
  else if activity = "높음 (주6~7회)" then some (bmr * 1.725)
  else none

/-- `calorie_plan(tdee, bmi, target_bmi)` from `app.py`. -/
def calorie_plan (tdee bmi target_bmi : ℚ) : ℚ × String :=
  if bmi > target_bmi + 1 then (tdee - 500, "감량")
  else if bmi < target_bmi - 1 then (tdee + 300, "증량")
  else (tdee, "유지")

/-- Python `round(x, 2)`: round to 2 decimal places, ties to even. -/
def round2 (x : ℚ) : ℚ :=
  let s : ℚ := x * 100
  let f : ℤ := Int.floor s
  let r : ℤ :=
    if s - f < 1 / 2 then f
    else if s - f > 1 / 2 then f + 1
    else if f % 2 = 0 then f else f + 1
  (r : ℚ) / 100

/-- The save handler (`app.py` lines 169–194): validate name and height, then
`INSERT` one row whose `bmi` is `round(bmi, 2)` and whose `status` is
`bmi_status(bmi)`. On a validation error the store is returned unchanged
together with the error message. -/
def save_record (store : List Record) (nid : Nat) (name date : String)
    (height weight : ℚ) : List Record × Option String :=
  if name = "" then (store, some "이름을 입력하세요.")
  else if height ≤ 0 then (store, some "키는 0보다 커야 합니다.")
  else
    match bmi_calc height weight with
    | none => (store, some "ZeroDivisionError")
    | some bmi =>
      (store ++ [⟨nid, name, date, height, weight, round2 bmi, bmi_status bmi⟩], none)

/-- Comparison used by `ORDER BY date` / `sort_values("date")`: the stored
`date` strings compared lexicographically. -/
def dateLe (a b : Record) : Prop := a.date ≤ b.date

instance : DecidableRel dateLe := fun a b => inferInstanceAs (Decidable (a.date ≤ b.date))

instance : IsTotal Record dateLe := ⟨fun a b => le_total a.date b.date⟩

instance : IsTrans Record dateLe := ⟨fun _ _ _ => le_trans⟩

/-- `load_data()` — `SELECT * FROM bmi_history ORDER BY date`. -/
def load_data (store : List Record) : List Record :=
  List.insertionSort dateLe store

/-- `df[df["name"] == selected_name].sort_values("date")` applied to `load_data`. -/
def query_by_name (nm : String) (store : List Record) : List Record :=
  List.insertionSort dateLe ((load_data store).filter (fun r => r.name = nm))

/-- The delete handler (`app.py` lines 321–329): `DELETE FROM bmi_history WHERE id IN (...)`. -/
def delete_by_ids (store : List Record) (ids : List Nat) : List Record :=
  store.filter (fun r => !(ids.contains r.id))

/-- C3: calorie_plan returns (tdee−500, 감량/cut) when bmi > target+1,
(tdee+300, 증량/bulk) when bmi < target−1, (tdee, 유지/maintain) otherwise;
concretely (2000, 27, 22) ↦ (1500, cut), (2000, 22, 22) ↦ (2000, maintain),
(2000, 20, 22) ↦ (2300, bulk). -/
theorem calorie_plan_spec (tdee bmi target_bmi : ℚ) :
    (bmi > target_bmi + 1 → calorie_plan tdee bmi target_bmi = (tdee - 500, "감량")) ∧
    (bmi < target_bmi - 1 → calorie_plan tdee bmi target_bmi = (tdee + 300, "증량")) ∧
    (¬bmi > target_bmi + 1 → ¬bmi < target_bmi - 1 →
      calorie_plan tdee bmi target_bmi = (tdee, "유지")) ∧
    calorie_plan 2000 27 22 = (1500, "감량") ∧
    calorie_plan 2000 22 22 = (2000, "유지") ∧
    calorie_plan 2000 20 22 = (2300, "증량") := by
  refine ⟨fun h => ?_, fun h => ?_, fun h1 h2 => ?_, ?_, ?_, ?_⟩
  · simp only [calorie_plan, if_pos h]
  · have h' : ¬bmi > target_bmi + 1 := by linarith
    simp only [calorie_plan, if_neg h', if_pos h]
  · simp only [calorie_plan, if_neg h1, if_neg h2]
  · norm_num [calorie_plan]
  · norm_num [calorie_plan]
  · norm_num [calorie_plan]

/-- C3 witness: the three band implications applied at concrete inputs. -/
theorem calorie_plan_spec_witness :
    calorie_plan 2000 27 22 = (1500, "감량") ∧
    calorie_plan 2000 20 22 = (2300, "증량") ∧
    calorie_plan 2000 22 22 = (2000, "유지") := by
  refine ⟨?_, ?_, ?_⟩
  · rw [(calorie_plan_spec 2000 27 22).1 (by norm_num)]; norm_num
  · rw [(calorie_plan_spec 2000 20 22).2.1 (by norm_num)]; norm_num
  · exact (calorie_plan_spec 2000 22 22).2.2.1 (by norm_num) (by norm_num)

/-- C4: bmi_status is the band classification with lower-inclusive boundaries
(Korean labels: 고도 비만 = severely obese, 2단계 비만 = stage-2 obese,
1단계 비만 = stage-1 obese, 과체중 = overweight, 정상 = normal,
저체중 = underweight); concretely 22.9 ↦ normal, 23 ↦ overweight,
34.99 ↦ stage-2 obese, 35 ↦ severely obese. -/
theorem bmi_status_bands (bmi : ℚ) :
    (35 ≤ bmi → bmi_status bmi = "고도 비만") ∧
    (30 ≤ bmi → bmi < 35 → bmi_status bmi = "2단계 비만") ∧
    (25 ≤ bmi → bmi < 30 → bmi_status bmi = "1단계 비만") ∧
    (23 ≤ bmi → bmi < 25 → bmi_status bmi = "과체중") ∧
    (18.5 ≤ bmi → bmi < 23 → bmi_status bmi = "정상") ∧
    (bmi < 18.5 → bmi_status bmi = "저체중") ∧
    bmi_status 22.9 = "정상" ∧ bmi_status 23 = "과체중" ∧
    bmi_status 34.99 = "2단계 비만" ∧ bmi_status 35 = "고도 비만" := by
  refine ⟨fun h => ?_, fun h h' => ?_, fun h h' => ?_, fun h h' => ?_, fun h h' => ?_,
    fun h => ?_, ?_, ?_, ?_, ?_⟩
  · simp only [bmi_status, if_pos h]
  · simp only [bmi_status, if_neg (not_le.mpr h'), if_pos h]
  · simp only [bmi_status, if_neg (not_le.mpr h'), if_neg (not_le.mpr (by linarith : bmi < 35)),
      if_pos h]
  · simp only [bmi_status, if_neg (not_le.mpr h'), if_neg (not_le.mpr (by linarith : bmi < 35)),
      if_neg (not_le.mpr (by linarith : bmi < 30)), if_pos h]
  · simp only [bmi_status, if_neg (not_le.mpr h'), if_neg (not_le.mpr (by linarith : bmi < 35)),
      if_neg (not_le.mpr (by linarith : bmi < 30)), if_neg (not_le.mpr (by linarith : bmi < 25)),
      if_pos h]
  · simp only [bmi_status, if_neg (not_le.mpr h), if_neg (not_le.mpr (by linarith : bmi < 35)),
      if_neg (not_le.mpr (by linarith : bmi < 30)), if_neg (not_le.mpr (by linarith : bmi < 25)),
      if_neg (not_le.mpr (by linarith : bmi < 23))]
  · norm_num [bmi_status]
  · norm_num [bmi_status]
  · norm_num [bmi_status]
  · norm_num [bmi_status]

/-- C4 witness: the band implications applied at concrete inputs. -/
theorem bmi_status_bands_witness :
    bmi_status 40 = "고도 비만" ∧ bmi_status 31 = "2단계 비만" ∧
    bmi_status 26 = "1단계 비만" ∧ bmi_status 24 = "과체중" ∧
    bmi_status 20 = "정상" ∧ bmi_status 17 = "저체중" :=
  ⟨(bmi_status_bands 40).1 (by norm_num),
   (bmi_status_bands 31).2.1 (by norm_num) (by norm_num),
   (bmi_status_bands 26).2.2.1 (by norm_num) (by norm_num),
   (bmi_status_bands 24).2.2.2.1 (by norm_num) (by norm_num),
   (bmi_status_bands 20).2.2.2.2.1 (by norm_num) (by norm_num),
   (bmi_status_bands 17).2.2.2.2.2.1 (by norm_num)⟩

/-- C5: calc_tdee multiplies bmr by the activity factor (거의 없음 = sedentary 1.2,
가벼움 = light 1.375, 보통 = moderate 1.55, 높음 = high 1.725) and fails (KeyError)
exactly on keys outside the four-entry table. -/
theorem calc_tdee_spec (bmr : ℚ) (a : String) :
    calc_tdee bmr "거의 없음" = some (bmr * 1.2) ∧
    calc_tdee bmr "가벼움 (주1~3회)" = some (bmr * 1.375) ∧
    calc_tdee bmr "보통 (주3~5회)" = some (bmr * 1.55) ∧
    calc_tdee bmr "높음 (주6~7회)" = some (bmr * 1.725) ∧
    (a ∉ ["거의 없음", "가벼움 (주1~3회)", "보통 (주3~5회)", "높음 (주6~7회)"] →
      calc_tdee bmr a = none) := by
  refine ⟨?_, ?_, ?_, ?_, fun h => ?_⟩
  · simp [calc_tdee]
  · simp [calc_tdee]
  · simp [calc_tdee]
  · simp [calc_tdee]
  · simp only [List.mem_cons, List.not_mem_nil, or_false, not_or] at h
    obtain ⟨h1, h2, h3, h4⟩ := h
    simp only [calc_tdee, if_neg h1, if_neg h2, if_neg h3, if_neg h4]

/-- C5 witness: the table rows and the failure case at concrete inputs. -/
theorem calc_tdee_spec_witness :
    calc_tdee 1000 "거의 없음" = some 1200 ∧ calc_tdee 1000 "운동선수" = none := by
  constructor
  · have h := (calc_tdee_spec 1000 "운동선수").1
    rw [h]; norm_num
  · exact (calc_tdee_spec 1000 "운동선수").2.2.2.2 (by decide)

/-- C2 counterexample: bmi_calc does not fail on a negative height — at
height = −170, weight = 70 it silently returns 7000/289 instead of an error. -/
theorem bmi_calc_no_error_on_negative :
    ((-170 : ℚ) ≤ 0) ∧ bmi_calc (-170) 70 = some (7000 / 289) := by
  constructor
  · norm_num
  · rw [bmi_calc, if_neg (by norm_num)]
    norm_num

/-- C2 amended: bmi_calc performs no input validation; for every height ≠ 0
(negative heights included) it returns weight / (height/100)^2, and it fails
(ZeroDivisionError) exactly at height = 0. The height ≤ 0 guard lives in the
save handler, not in bmi_calc. -/
theorem bmi_calc_spec (height weight : ℚ) :
    (height ≠ 0 → bmi_calc height weight = some (weight / (height / 100) ^ 2)) ∧
    bmi_calc 0 weight = none := by
  constructor
  · intro h
    rw [bmi_calc, if_neg (pow_ne_zero _ (div_ne_zero h (by norm_num)))]
  · rw [bmi_calc, if_pos (by norm_num)]

/-- C2 amended witness. -/
theorem bmi_calc_spec_witness :
    bmi_calc 170 70 = some (70 / (170 / 100 : ℚ) ^ 2) ∧ bmi_calc 0 70 = none :=
  ⟨(bmi_calc_spec 170 70).1 (by norm_num), (bmi_calc_spec 0 70).2⟩

/-- C6: the save handler rejects an empty name or a non-positive height with a
validation error and leaves the store untouched; a record is appended exactly
when the name is non-empty and the height is positive. -/
theorem save_record_validation (store : List Record) (nid : Nat) (name date : String)
    (height weight : ℚ) :
    ((name = "" ∨ height ≤ 0) →
      ∃ msg, save_record store nid name date height weight = (store, some msg)) ∧
    (name ≠ "" → 0 < height →
      ∃ r, save_record store nid name date height weight = (store ++ [r], none)) := by
  constructor
  · intro h
    by_cases hn : name = ""
    · exact ⟨"이름을 입력하세요.", by simp only [save_record, if_pos hn]⟩
    · have hh : height ≤ 0 := h.resolve_left hn
      exact ⟨"키는 0보다 커야 합니다.", by simp only [save_record, if_neg hn, if_pos hh]⟩
  · intro hn hh
    have hne : (height / 100) ^ 2 ≠ 0 :=
      pow_ne_zero _ (div_ne_zero (ne_of_gt hh) (by norm_num))
    have hbc : bmi_calc height weight = some (weight / (height / 100) ^ 2) := by
      rw [bmi_calc, if_neg hne]
    refine ⟨⟨nid, name, date, height, weight, round2 (weight / (height / 100) ^ 2),
      bmi_status (weight / (height / 100) ^ 2)⟩, ?_⟩
    simp only [save_record, if_neg hn, if_neg (not_le.mpr hh), hbc]

/-- C6 witness: rejection on empty name, rejection on zero height, acceptance
otherwise, each at a concrete input. -/
theorem save_record_validation_witness :
    (∃ msg, save_record [] 1 "" "2025-01-01 10:00" 170 70 = ([], some msg)) ∧
    (∃ msg, save_record [] 1 "kim" "2025-01-01 10:00" 0 70 = ([], some msg)) ∧
    (∃ r, save_record [] 1 "kim" "2025-01-01 10:00" 170 70 = ([] ++ [r], none)) :=
  ⟨(save_record_validation [] 1 "" "2025-01-01 10:00" 170 70).1 (Or.inl rfl),
   (save_record_validation [] 1 "kim" "2025-01-01 10:00" 0 70).1 (Or.inr (by norm_num)),
   (save_record_validation [] 1 "kim" "2025-01-01 10:00" 170 70).2
     (by decide) (by norm_num)⟩

/-- C9: weight is never validated — with any positive height, a non-empty name
and weight 0, the save handler succeeds and stores bmi = 0 with status
저체중 (underweight). -/
theorem save_record_weight_zero (store : List Record) (nid : Nat) (name date : String)
    (height : ℚ) (hn : name ≠ "") (hh : 0 < height) :
    save_record store nid name date height 0 =
      (store ++ [⟨nid, name, date, height, 0, 0, "저체중"⟩], none) := by
  have hne : (height / 100) ^ 2 ≠ 0 :=
    pow_ne_zero _ (div_ne_zero (ne_of_gt hh) (by norm_num))
  have hbc : bmi_calc height 0 = some 0 := by
    rw [bmi_calc, if_neg hne, zero_div]
  have hr : round2 0 = 0 := by
    norm_num [round2]
  have hs : bmi_status 0 = "저체중" := by
    norm_num [bmi_status]
  simp only [save_record, if_neg hn, if_neg (not_le.mpr hh), hbc, hr, hs]

/-- C9 witness. -/
theorem save_record_weight_zero_witness :
    save_record [] 1 "kim" "2025-01-01 10:00" 170 0 =
      ([⟨1, "kim", "2025-01-01 10:00", 170, 0, 0, "저체중"⟩], none) := by
  rw [save_record_weight_zero [] 1 "kim" "2025-01-01 10:00" 170 (by decide) (by norm_num)]
  rfl

/-- C1: every record accepted by save stores bmi = round2(weight/(height/100)^2)
and status = bmi_status of that same write-time bmi, and reads (load_data /
query_by_name) return the stored records unchanged — they are permutations of
the store, never recomputations. -/
theorem save_record_write_time_invariant (store : List Record) (nid : Nat)
    (name date : String) (height weight : ℚ) (store' : List Record)
    (hsucc : save_record store nid name date height weight = (store', none)) :
    ∃ r, store' = store ++ [r] ∧
      r.height = height ∧ r.weight = weight ∧
      r.bmi = round2 (weight / (height / 100) ^ 2) ∧
      r.status = bmi_status (weight / (height / 100) ^ 2) ∧
      (load_data store').Perm store' ∧
      ∀ nm, (query_by_name nm store').Perm (store'.filter (fun q => q.name = nm)) := by
  by_cases hn : name = ""
  · simp only [save_record, if_pos hn, Prod.mk.injEq] at hsucc
    exact absurd hsucc.2 (by simp)
  by_cases hh : height ≤ 0
  · simp only [save_record, if_neg hn, if_pos hh, Prod.mk.injEq] at hsucc
    exact absurd hsucc.2 (by simp)
  have hne : (height / 100) ^ 2 ≠ 0 :=
    pow_ne_zero _ (div_ne_zero (ne_of_gt (not_le.mp hh)) (by norm_num))
  have hbc : bmi_calc height weight = some (weight / (height / 100) ^ 2) := by
    rw [bmi_calc, if_neg hne]
  simp only [save_record, if_neg hn, if_neg hh, hbc, Prod.mk.injEq] at hsucc
  refine ⟨_, hsucc.1.symm, rfl, rfl, rfl, rfl, List.perm_insertionSort dateLe store', ?_⟩
  intro nm
  exact (List.perm_insertionSort dateLe _).trans
    ((List.perm_insertionSort dateLe store').filter _)

/-- C1 witness: a concrete successful save. -/
theorem save_record_write_time_invariant_witness :
    ∃ r, ([⟨1, "kim", "2025-01-01 10:00", 170, 70,
        round2 ((70 : ℚ) / (170 / 100) ^ 2),
        bmi_status ((70 : ℚ) / (170 / 100) ^ 2)⟩] : List Record) = [] ++ [r] ∧
      r.height = 170 ∧ r.weight = 70 ∧
      r.bmi = round2 ((70 : ℚ) / (170 / 100) ^ 2) ∧
      r.status = bmi_status ((70 : ℚ) / (170 / 100) ^ 2) ∧
      (load_data [⟨1, "kim", "2025-01-01 10:00", 170, 70,
        round2 ((70 : ℚ) / (170 / 100) ^ 2),
        bmi_status ((70 : ℚ) / (170 / 100) ^ 2)⟩]).Perm
        [⟨1, "kim", "2025-01-01 10:00", 170, 70,
          round2 ((70 : ℚ) / (170 / 100) ^ 2),
          bmi_status ((70 : ℚ) / (170 / 100) ^ 2)⟩] ∧
      ∀ nm, (query_by_name nm [⟨1, "kim", "2025-01-01 10:00", 170, 70,
        round2 ((70 : ℚ) / (170 / 100) ^ 2),
        bmi_status ((70 : ℚ) / (170 / 100) ^ 2)⟩]).Perm
        ([⟨1, "kim", "2025-01-01 10:00", 170, 70,
          round2 ((70 : ℚ) / (170 / 100) ^ 2),
          bmi_status ((70 : ℚ) / (170 / 100) ^ 2)⟩].filter (fun q => q.name = nm)) :=
  save_record_write_time_invariant [] 1 "kim" "2025-01-01 10:00" 170 70 _ (by
    have hbc : bmi_calc 170 70 = some ((70 : ℚ) / (170 / 100) ^ 2) := by
      rw [bmi_calc, if_neg (by norm_num)]
    simp only [save_record, hbc, if_neg (show ¬("kim" : String) = "" by decide),
      if_neg (show ¬(170 : ℚ) ≤ 0 by norm_num), List.nil_append])

/-- C7: load_data returns all stored records sorted ascending by the date
string, and query_by_name returns exactly the records with the given name,
sorted ascending by date, whatever the insertion order of the store. -/
theorem query_ordering (store : List Record) (nm : String) :
    (load_data store).Perm store ∧
    (load_data store).Sorted dateLe ∧
    (query_by_name nm store).Perm (store.filter (fun r => r.name = nm)) ∧
    (query_by_name nm store).Sorted dateLe :=
  ⟨List.perm_insertionSort dateLe store,
   List.sorted_insertionSort dateLe store,
   (List.perm_insertionSort dateLe _).trans
     ((List.perm_insertionSort dateLe store).filter _),
   List.sorted_insertionSort dateLe _⟩

/-- C8: bulk delete is a no-op on the empty id list and on ids absent from the
store, it is idempotent, and records whose id is not listed are unaffected. -/
theorem delete_by_ids_spec (store : List Record) (ids : List Nat) :
    delete_by_ids store [] = store ∧
    ((∀ i ∈ ids, ∀ r ∈ store, r.id ≠ i) → delete_by_ids store ids = store) ∧
    delete_by_ids (delete_by_ids store ids) ids = delete_by_ids store ids ∧
    ∀ r ∈ store, r.id ∉ ids → r ∈ delete_by_ids store ids := by
  refine ⟨?_, fun h => ?_, ?_, fun r hr hid => ?_⟩
  · simp [delete_by_ids]
  · refine List.filter_eq_self.mpr (fun r hr => ?_)
    simp only [Bool.not_eq_true', List.contains, List.elem_eq_mem, decide_eq_false_iff_not]
    intro hmem
    exact h r.id hmem r hr rfl
  · exact List.filter_eq_self.mpr (fun r hr => (List.mem_filter.mp hr).2)
  · refine List.mem_filter.mpr ⟨hr, ?_⟩
    simp only [Bool.not_eq_true', List.contains, List.elem_eq_mem, decide_eq_false_iff_not]
    exact hid

/-- C8 witness: deleting a missing id, deleting nothing, and double deletion at
concrete stores. -/
theorem delete_by_ids_spec_witness :
    delete_by_ids [⟨1, "kim", "2025-01-01 10:00", 170, 70, 24.22, "과체중"⟩] [] =
      [⟨1, "kim", "2025-01-01 10:00", 170, 70, 24.22, "과체중"⟩] ∧
    delete_by_ids [⟨1, "kim", "2025-01-01 10:00", 170, 70, 24.22, "과체중"⟩] [9] =
      [⟨1, "kim", "2025-01-01 10:00", 170, 70, 24.22, "과체중"⟩] ∧
    (⟨1, "kim", "2025-01-01 10:00", 170, 70, 24.22, "과체중"⟩ : Record) ∈
      delete_by_ids [⟨1, "kim", "2025-01-01 10:00", 170, 70, 24.22, "과체중"⟩] [9] :=
  ⟨(delete_by_ids_spec [⟨1, "kim", "2025-01-01 10:00", 170, 70, 24.22, "과체중"⟩] [9]).1,
   (delete_by_ids_spec [⟨1, "kim", "2025-01-01 10:00", 170, 70, 24.22, "과체중"⟩] [9]).2.1
     (by decide),
   (delete_by_ids_spec [⟨1, "kim", "2025-01-01 10:00", 170, 70, 24.22, "과체중"⟩] [9]).2.2.2
     _ (List.mem_singleton_self _) (by decide)⟩

/-- A wall-clock time at the precision the app stores (minutes). -/
structure DateTime where
  year : Nat
  month : Nat
  day : Nat
  hour : Nat
  minute : Nat
deriving DecidableEq, Repr

/-- Field ranges of a real `datetime.now()` value (four-digit year). -/
def ValidDT (d : DateTime) : Prop :=
  1000 ≤ d.year ∧ d.year ≤ 9999 ∧ 1 ≤ d.month ∧ d.month ≤ 12 ∧
    1 ≤ d.day ∧ d.day ≤ 31 ∧ d.hour ≤ 23 ∧ d.minute ≤ 59

instance (d : DateTime) : Decidable (ValidDT d) := by
  unfold ValidDT
  infer_instance

/-- Zero-padded fixed-width decimal rendering, big-endian — the `%Y`, `%m`,
`%d`, `%H`, `%M` fields of `strftime`. -/
def digitsBE : Nat → Nat → List Char
  | 0, _ => []
  | w + 1, n => digitsBE w (n / 10) ++ [Nat.digitChar (n % 10)]

/-- `datetime.now().strftime("%Y-%m-%d %H:%M")` (app.py line 185). -/
def fmtDT (d : DateTime) : String :=
  ⟨digitsBE 4 d.year ++ ('-' :: (digitsBE 2 d.month ++ ('-' :: (digitsBE 2 d.day ++
    (' ' :: (digitsBE 2 d.hour ++ (':' :: digitsBE 2 d.minute)))))))⟩

/-- Chronological order at minute precision. -/
def dtLt (a b : DateTime) : Prop :=
  a.year < b.year ∨ (a.year = b.year ∧ (a.month < b.month ∨ (a.month = b.month ∧
    (a.day < b.day ∨ (a.day = b.day ∧ (a.hour < b.hour ∨
      (a.hour = b.hour ∧ a.minute < b.minute)))))))

/-- Lexicographic strict order on character lists — what `String.lt` is. -/
def lexC (a b : List Char) : Prop := List.Lex (· < ·) a b

lemma lexC_cons {x y : Char} {xs ys : List Char} :
    lexC (x :: xs) (y :: ys) ↔ x < y ∨ (x = y ∧ lexC xs ys) := by
  constructor
  · intro h
    cases h with
    | cons h => exact Or.inr ⟨rfl, h⟩
    | rel h => exact Or.inl h
  · rintro (h | ⟨rfl, h⟩)
    · exact List.Lex.rel h
    · exact List.Lex.cons h

lemma lexC_append (c d : List Char) : ∀ (a b : List Char), a.length = b.length →
    (lexC (a ++ c) (b ++ d) ↔ lexC a b ∨ (a = b ∧ lexC c d)) := by
  intro a
  induction a with
  | nil =>
    intro b h
    cases b with
    | cons y ys => simp at h
    | nil =>
      simp only [List.nil_append, true_and]
      constructor
      · intro h'
        exact Or.inr h'
      · rintro (h' | h')
        · exact absurd h' (List.Lex.not_nil_right _ _)
        · exact h'
  | cons x xs ih =>
    intro b h
    cases b with
    | nil => simp at h
    | cons y ys =>
      have hl : xs.length = ys.length := by simpa using h
      simp only [List.cons_append, lexC_cons, ih ys hl, List.cons.injEq]
      tauto

lemma lexC_seg (x : Char) (c d a b : List Char) (h : a.length = b.length) :
    lexC (a ++ (x :: c)) (b ++ (x :: d)) ↔ lexC a b ∨ (a = b ∧ lexC c d) := by
  rw [lexC_append (x :: c) (x :: d) a b h, lexC_cons]
  simp [lt_self_iff_false]

lemma lexC_single {a b : Char} : lexC [a] [b] ↔ a < b :=
  List.Lex.singleton_iff a b

lemma digitChar_lt_iff : ∀ d1 < 10, ∀ d2 < 10,
    (Nat.digitChar d1 < Nat.digitChar d2 ↔ d1 < d2) := by decide

lemma digitChar_inj : ∀ d1 < 10, ∀ d2 < 10,
    (Nat.digitChar d1 = Nat.digitChar d2 ↔ d1 = d2) := by decide

lemma digitsBE_length : ∀ (w n : Nat), (digitsBE w n).length = w := by
  intro w
  induction w with
  | zero => intro n; rfl
  | succ w ih => intro n; simp [digitsBE, ih]

lemma digitsBE_len_eq (w n1 n2 : Nat) : (digitsBE w n1).length = (digitsBE w n2).length := by
  rw [digitsBE_length, digitsBE_length]

lemma digitsBE_eq_iff : ∀ (w n1 n2 : Nat), n1 < 10 ^ w → n2 < 10 ^ w →
    (digitsBE w n1 = digitsBE w n2 ↔ n1 = n2) := by
  intro w
  induction w with
  | zero =>
    intro n1 n2 h1 h2
    simp only [pow_zero, Nat.lt_one_iff] at h1 h2
    subst h1
    subst h2
    simp [digitsBE]
  | succ w ih =>
    intro n1 n2 h1 h2
    have hp : (10 : Nat) ^ (w + 1) = 10 ^ w * 10 := pow_succ 10 w
    have b1 : n1 / 10 < 10 ^ w := Nat.div_lt_of_lt_mul (by rw [hp] at h1; omega)
    have b2 : n2 / 10 < 10 ^ w := Nat.div_lt_of_lt_mul (by rw [hp] at h2; omega)
    constructor
    · intro h
      simp only [digitsBE] at h
      obtain ⟨ha, hb⟩ := List.append_inj h (digitsBE_len_eq w _ _)
      have e1 : n1 / 10 = n2 / 10 := (ih _ _ b1 b2).mp ha
      have e2 : n1 % 10 = n2 % 10 := by
        have hc : Nat.digitChar (n1 % 10) = Nat.digitChar (n2 % 10) := by simpa using hb
        exact (digitChar_inj _ (Nat.mod_lt _ (by norm_num)) _
          (Nat.mod_lt _ (by norm_num))).mp hc
      omega
    · rintro rfl
      rfl

lemma digitsBE_lt_iff : ∀ (w n1 n2 : Nat), n1 < 10 ^ w → n2 < 10 ^ w →
    (lexC (digitsBE w n1) (digitsBE w n2) ↔ n1 < n2) := by
  intro w
  induction w with
  | zero =>
    intro n1 n2 h1 h2
    simp only [pow_zero, Nat.lt_one_iff] at h1 h2
    subst h1
    subst h2
    simp only [digitsBE]
    exact ⟨fun h => absurd h (List.Lex.not_nil_right _ _), fun h => absurd h (lt_irrefl 0)⟩
  | succ w ih =>
    intro n1 n2 h1 h2
    have hp : (10 : Nat) ^ (w + 1) = 10 ^ w * 10 := pow_succ 10 w
    have b1 : n1 / 10 < 10 ^ w := Nat.div_lt_of_lt_mul (by rw [hp] at h1; omega)
    have b2 : n2 / 10 < 10 ^ w := Nat.div_lt_of_lt_mul (by rw [hp] at h2; omega)
    simp only [digitsBE]
    rw [lexC_append _ _ _ _ (digitsBE_len_eq w _ _), ih _ _ b1 b2,
      digitsBE_eq_iff w _ _ b1 b2, lexC_single,
      digitChar_lt_iff _ (Nat.mod_lt _ (by norm_num)) _ (Nat.mod_lt _ (by norm_num))]
    omega

lemma mk_lt_iff {a b : List Char} : (⟨a⟩ : String) < ⟨b⟩ ↔ lexC a b :=
  String.lt_iff_toList_lt

lemma fmtDT_lt_iff (d1 d2 : DateTime) (h1 : ValidDT d1) (h2 : ValidDT d2) :
    fmtDT d1 < fmtDT d2 ↔ dtLt d1 d2 := by
  obtain ⟨y1a, y1b, m1a, m1b, da1a, da1b, ho1a, mi1a⟩ := h1
  obtain ⟨y2a, y2b, m2a, m2b, da2a, da2b, ho2a, mi2a⟩ := h2
  have e4 : (10 : Nat) ^ 4 = 10000 := by norm_num
  have e2 : (10 : Nat) ^ 2 = 100 := by norm_num
  simp only [fmtDT]
  rw [mk_lt_iff,
    lexC_seg '-' _ _ _ _ (digitsBE_len_eq 4 d1.year d2.year),
    lexC_seg '-' _ _ _ _ (digitsBE_len_eq 2 d1.month d2.month),
    lexC_seg ' ' _ _ _ _ (digitsBE_len_eq 2 d1.day d2.day),
    lexC_seg ':' _ _ _ _ (digitsBE_len_eq 2 d1.hour d2.hour),
    digitsBE_lt_iff 4 d1.year d2.year (by omega) (by omega),
    digitsBE_eq_iff 4 d1.year d2.year (by omega) (by omega),
    digitsBE_lt_iff 2 d1.month d2.month (by omega) (by omega),
    digitsBE_eq_iff 2 d1.month d2.month (by omega) (by omega),
    digitsBE_lt_iff 2 d1.day d2.day (by omega) (by omega),
    digitsBE_eq_iff 2 d1.day d2.day (by omega) (by omega),
    digitsBE_lt_iff 2 d1.hour d2.hour (by omega) (by omega),
    digitsBE_eq_iff 2 d1.hour d2.hour (by omega) (by omega),
    digitsBE_lt_iff 2 d1.minute d2.minute (by omega) (by omega)]
  simp only [dtLt]

lemma fmtDT_eq_iff (d1 d2 : DateTime) (h1 : ValidDT d1) (h2 : ValidDT d2) :
    fmtDT d1 = fmtDT d2 ↔ d1 = d2 := by
  constructor
  · intro h
    have n1 : ¬dtLt d1 d2 := by
      rw [← fmtDT_lt_iff d1 d2 h1 h2, h]
      exact lt_irrefl _
    have n2 : ¬dtLt d2 d1 := by
      rw [← fmtDT_lt_iff d2 d1 h2 h1, h]
      exact lt_irrefl _
    obtain ⟨y1, mo1, da1, ho1, mi1⟩ := d1
    obtain ⟨y2, mo2, da2, ho2, mi2⟩ := d2
    simp only [dtLt] at n1 n2
    simp only [DateTime.mk.injEq]
    omega
  · rintro rfl
    rfl

/-- C10: timestamps are the text `YYYY-MM-DD HH:MM` and ordering compares that
text lexicographically: on valid wall-clock times the string order coincides
with chronological order, two times are formatted equal exactly when they are
the same minute, and two records with the same date string are tied under the
sort key — either relative order satisfies the `ORDER BY date` contract, so
latest/previous is not determined by insertion order. -/
theorem timestamp_sort_key (d1 d2 : DateTime) (r1 r2 : Record)
    (h1 : ValidDT d1) (h2 : ValidDT d2) (hdate : r1.date = r2.date) :
    (fmtDT d1 < fmtDT d2 ↔ dtLt d1 d2) ∧
    (fmtDT d1 = fmtDT d2 ↔ d1 = d2) ∧
    dateLe r1 r2 ∧ dateLe r2 r1 ∧
    List.Sorted dateLe [r1, r2] ∧ List.Sorted dateLe [r2, r1] := by
  have hle : dateLe r1 r2 := le_of_eq hdate
  have hge : dateLe r2 r1 := le_of_eq hdate.symm
  refine ⟨fmtDT_lt_iff d1 d2 h1 h2, fmtDT_eq_iff d1 d2 h1 h2, hle, hge, ?_, ?_⟩
  · simp [List.sorted_cons, hle]
  · simp [List.sorted_cons, hge]

/-- C10 witness: two times one minute apart, and two records sharing a date. -/
theorem timestamp_sort_key_witness :
    (fmtDT ⟨2025, 3, 5, 9, 30⟩ < fmtDT ⟨2025, 3, 5, 9, 31⟩ ↔
      dtLt ⟨2025, 3, 5, 9, 30⟩ ⟨2025, 3, 5, 9, 31⟩) ∧
    (fmtDT ⟨2025, 3, 5, 9, 30⟩ = fmtDT ⟨2025, 3, 5, 9, 31⟩ ↔
      (⟨2025, 3, 5, 9, 30⟩ : DateTime) = ⟨2025, 3, 5, 9, 31⟩) ∧
    dateLe ⟨1, "kim", "2025-03-05 09:30", 170, 70, 24.22, "과체중"⟩
      ⟨2, "kim", "2025-03-05 09:30", 171, 71, 24.28, "과체중"⟩ ∧
    dateLe ⟨2, "kim", "2025-03-05 09:30", 171, 71, 24.28, "과체중"⟩
      ⟨1, "kim", "2025-03-05 09:30", 170, 70, 24.22, "과체중"⟩ ∧
    List.Sorted dateLe [⟨1, "kim", "2025-03-05 09:30", 170, 70, 24.22, "과체중"⟩,
      ⟨2, "kim", "2025-03-05 09:30", 171, 71, 24.28, "과체중"⟩] ∧
    List.Sorted dateLe [⟨2, "kim", "2025-03-05 09:30", 171, 71, 24.28, "과체중"⟩,
      ⟨1, "kim", "2025-03-05 09:30", 170, 70, 24.22, "과체중"⟩] :=
  timestamp_sort_key ⟨2025, 3, 5, 9, 30⟩ ⟨2025, 3, 5, 9, 31⟩
    ⟨1, "kim", "2025-03-05 09:30", 170, 70, 24.22, "과체중"⟩
    ⟨2, "kim", "2025-03-05 09:30", 171, 71, 24.28, "과체중"⟩
    (by decide) (by decide) rfl

end BmiApp
